import Mathlib

/-!
# Ceph fscache glue (`fs/ceph/cache.c`, `fs/ceph/cache.h`)

A shallow embedding of the Ceph client's local-cache integration layer:

* the process-wide list `ceph_fscache_list` of registered filesystem
  identities together with `ceph_fscache_register_fs` and
  `ceph_fscache_unregister_fs`;
* the per-inode cookie operations (`register_inode_cookie`, `use_cookie`,
  `unuse_cookie`, `update`, `invalidate`, `resize`,
  `unregister_inode_cookie`).

Pointers to cookies are `Option Nat` (`none` is NULL).  Every operation of
the caching service that the code enters is recorded, in program order, as a
value of `fscache_call`; the answer of the service to an acquire is an
argument of the embedded function, and so is the outcome of `kzalloc`.
-/

namespace Ceph

/-! ## Data model -/

/-- A `struct fscache_cookie *`: `none` is NULL, `some a` is the address of a cookie. -/
abbrev fscache_cookie_ptr := Option Nat

/-- Modelled from the spec: `struct ceph_fsid` is declared outside these sources; it is the
opaque fixed-size filesystem identifier, an array of sixteen bytes. -/
structure ceph_fsid where
  fsid : List Nat
  size : fsid.length = 16
deriving DecidableEq

/-- The value of `sizeof(struct ceph_fsid)`. -/
def sizeof_ceph_fsid : Nat := 16

/-- Modelled from the spec: `struct ceph_vino` is declared outside these sources; it is the
unique identity of an inode (inode number and snapshot id). -/
structure ceph_vino where
  ino : Nat
  snap : Nat
deriving DecidableEq

/-- The coherency data handed to fscache, `struct ceph_aux_inode` (cache.c:15). -/
structure ceph_aux_inode where
  version : Nat
  mtime_sec : Nat
  mtime_nsec : Nat
deriving DecidableEq

/-- One element of `ceph_fscache_list`, `struct ceph_fscache_entry` (cache.c:29).  The flexible
array member `uniquifier[]` is allocated with exactly `uniq_len` bytes (cache.c:116), which the
last field records. -/
structure ceph_fscache_entry where
  fscache : fscache_cookie_ptr
  uniq_len : Nat
  fsid : ceph_fsid
  uniquifier : List Nat
  alloc : uniquifier.length = uniq_len
deriving DecidableEq

/-- Modelled from the spec: `struct ceph_fs_client` is declared outside these sources; the
per-mount client context.  The fields cache.c reads or writes are `client->fsid`,
`mount_options->fscache_uniq` (NULL, or the bytes found at the pointer: the string ends before
the first NUL byte, or with the list) and the session cookie `fscache`. -/
structure ceph_fs_client where
  fsid : ceph_fsid
  fscache_uniq : Option (List Nat)
  fscache : fscache_cookie_ptr
deriving DecidableEq

/-- The parent passed to `fscache_acquire_cookie`. -/
inductive cookie_parent where
  | primary_index
  | cookie (c : fscache_cookie_ptr)
deriving DecidableEq

/-- The cookie type passed to `fscache_acquire_cookie`. -/
inductive cookie_type where
  | FSCACHE_COOKIE_TYPE_INDEX
  | FSCACHE_COOKIE_TYPE_DATAFILE
deriving DecidableEq

/-- The index key passed to `fscache_acquire_cookie`: either the bytes starting at `&ent->fsid`
(the fsid followed by the uniquifier) or the inode's `i_vino`. -/
inductive index_key where
  | bytes (b : List Nat)
  | vino (v : ceph_vino)
deriving DecidableEq

/-- An operation of the caching service entered by cache.c, with its arguments.  The functions
`fscache_use_cookie`, `fscache_unuse_cookie`, `fscache_update_cookie`, `fscache_resize_cookie`
and `fscache_relinquish_cookie` are reached in cache.c and cache.h only behind a test of the
cookie written in the caller, and `__fscache_relinquish_cookie` is the raw operation; the one
call made without such a test, `fscache_invalidate`, goes through the wrapper modelled below. -/
inductive fscache_call where
  | acquire_cookie (parent : cookie_parent) (type : cookie_type) (name : String)
      (key : index_key) (aux : Option ceph_aux_inode) (object_size : Int)
  | use_cookie (cookie : fscache_cookie_ptr) (will_modify : Bool)
  | unuse_cookie (cookie : fscache_cookie_ptr) (aux : Option ceph_aux_inode)
      (object_size : Option Int)
  | update_cookie (cookie : fscache_cookie_ptr) (aux : ceph_aux_inode) (object_size : Int)
  | invalidate (cookie : fscache_cookie_ptr) (aux : ceph_aux_inode) (size : Int) (flags : Nat)
  | resize_cookie (cookie : fscache_cookie_ptr) (new_size : Int)
  | relinquish_cookie (cookie : fscache_cookie_ptr) (retire : Bool)
  | __fscache_relinquish_cookie (cookie : fscache_cookie_ptr) (retire : Bool)
deriving DecidableEq

/-- What cache.c reports besides its return values: the two log messages (`errorfc` at
cache.c:110 and `pr_warn` at cache.c:136), and the two invariant violations tested by
`WARN_ON_ONCE` (an object that already has a cookie at cache.c:162, no entry found at
cache.c:214).  A violation is recorded at every call in which the tested condition holds; the
macro prints a warning for the first occurrence at its call site only, and that once-only
printing is not part of the model. -/
inductive diagnostic where
  | errorfc_already_registered
  | pr_warn_unable_to_set_primary_index
  | violation_cookie_present
  | violation_not_found
deriving DecidableEq

/-! ## Error numbers and libc helpers -/

/-- The errno `EBUSY`. -/
def EBUSY : Int := 16

/-- The errno `ENOMEM`. -/
def ENOMEM : Int := 12

/-- The C `strlen`: the number of bytes before the first NUL. -/
def strlen (s : List Nat) : Nat := (s.takeWhile (fun c => c != 0)).length

/-- The C `memcmp` over the first `n` bytes of two buffers: zero when they agree, otherwise the
difference of the first pair of bytes that differ.  Both buffers hold at least `n` bytes at
every call site; a read past the end of a buffer is not modelled and yields zero. -/
def memcmp : List Nat → List Nat → Nat → Int
  | _, _, 0 => 0
  | a :: as, b :: bs, n + 1 => if a = b then memcmp as bs n else (a : Int) - (b : Int)
  | _, _, _ + 1 => 0

/-- The C `memcpy` seen from the destination: its first `n` bytes are those of the source. -/
def memcpy (src : List Nat) (n : Nat) : List Nat := src.take n

/-- Conversion of a signed 64-bit value to `u64`, as done by a C assignment. -/
def u64_of_s64 (x : Int) : Nat := (x % 2 ^ 64).toNat

/-! ## Inodes -/

/-- Modelled from the spec: `struct timespec64` is declared outside these sources; the
modification timestamp of an object, signed seconds and nanoseconds. -/
structure timespec64 where
  tv_sec : Int
  tv_nsec : Int
deriving DecidableEq

/-- Modelled from the spec: `struct inode` is declared outside these sources; the fields of the
object that cache.c reads are its mode, its state flags, its mtime and its size. -/
structure inode where
  i_mode : Nat
  i_state : Nat
  i_mtime : timespec64
  i_size : Int
deriving DecidableEq

/-- Modelled from the spec: `struct ceph_inode_info` is declared outside these sources; it
embeds the VFS inode and carries the unique identity `i_vino`, the version counter `i_version`
and the object's cookie `fscache`.  The C functions that take a `struct inode *` reach it
through `ceph_inode(inode)`; the embedded functions take it directly. -/
structure ceph_inode_info where
  vfs_inode : inode
  i_vino : ceph_vino
  i_version : Nat
  fscache : fscache_cookie_ptr
deriving DecidableEq

/-- Modelled from the spec: the macro `S_ISREG` is declared outside these sources; it tells
whether a mode describes a regular file, `(m & S_IFMT) == S_IFREG`. -/
def S_ISREG (m : Nat) : Bool := (m &&& 0o170000) == 0o100000

/-- Modelled from the spec: the flag `I_NEW` is declared outside these sources; it marks an
inode that is being instantiated for the first time. -/
def I_NEW : Nat := 8

/-- Modelled from the spec: `i_size_read` is declared outside these sources; it returns the
current size of the object. -/
def i_size_read (i : inode) : Int := i.i_size

/-- Modelled from the spec: `fscache_cookie_valid` is declared outside these sources; a handle
is valid when it is present (not NULL). -/
def fscache_cookie_valid (cookie : fscache_cookie_ptr) : Bool := cookie.isSome

/-- What an inode operation leaves behind: the inode, the operations of the service it
entered, in order, and what it reported (see `diagnostic`). -/
structure inode_effect where
  ci : ceph_inode_info
  calls : List fscache_call
  diag : List diagnostic
deriving DecidableEq

/-- The inline `ceph_fscache_inode_init` (cache.h:31). -/
def ceph_fscache_inode_init (ci : ceph_inode_info) : ceph_inode_info :=
  { ci with fscache := none }

/-- The inline `ceph_fscache_cookie` (cache.h:36). -/
def ceph_fscache_cookie (ci : ceph_inode_info) : fscache_cookie_ptr := ci.fscache

/-- The function `ceph_fscache_use_cookie` (cache.c:48). -/
def ceph_fscache_use_cookie (ci : ceph_inode_info) (will_modify : Bool) : inode_effect :=
  if ci.fscache.isSome then
    { ci := ci, calls := [fscache_call.use_cookie ci.fscache will_modify], diag := [] }
  else
    { ci := ci, calls := [], diag := [] }

/-- The function `ceph_fscache_unuse_cookie` (cache.c:56). -/
def ceph_fscache_unuse_cookie (ci : ceph_inode_info) (update : Bool) : inode_effect :=
  if ci.fscache.isNone then
    { ci := ci, calls := [], diag := [] }
  else if update then
    let aux : ceph_aux_inode :=
      { version := ci.i_version
        mtime_sec := u64_of_s64 ci.vfs_inode.i_mtime.tv_sec
        mtime_nsec := u64_of_s64 ci.vfs_inode.i_mtime.tv_nsec }
    let i_size := i_size_read ci.vfs_inode
    { ci := ci, calls := [fscache_call.unuse_cookie ci.fscache (some aux) (some i_size)],
      diag := [] }
  else
    { ci := ci, calls := [fscache_call.unuse_cookie ci.fscache none none], diag := [] }

/-- The function `ceph_fscache_update` (cache.c:77). -/
def ceph_fscache_update (ci : ceph_inode_info) : inode_effect :=
  let i_size := i_size_read ci.vfs_inode
  if ci.fscache.isNone then
    { ci := ci, calls := [], diag := [] }
  else
    let aux : ceph_aux_inode :=
      { version := ci.i_version
        mtime_sec := u64_of_s64 ci.vfs_inode.i_mtime.tv_sec
        mtime_nsec := u64_of_s64 ci.vfs_inode.i_mtime.tv_nsec }
    { ci := ci, calls := [fscache_call.update_cookie ci.fscache aux i_size], diag := [] }

/-- The function `ceph_fscache_register_inode_cookie` (cache.c:144).  The client `fsc` is the
one `ceph_inode_to_client(inode)` returns; `acquired` is what `fscache_acquire_cookie` answers
if it is called. -/
def ceph_fscache_register_inode_cookie (fsc : ceph_fs_client) (ci : ceph_inode_info)
    (acquired : fscache_cookie_ptr) : inode_effect :=
  if fsc.fscache.isNone then
    { ci := ci, calls := [], diag := [] }
  else if !S_ISREG ci.vfs_inode.i_mode then
    { ci := ci, calls := [], diag := [] }
  else if ci.vfs_inode.i_state &&& I_NEW = 0 then
    { ci := ci, calls := [], diag := [] }
  else
    let warn := if ci.fscache.isSome then [diagnostic.violation_cookie_present] else []
    let aux : ceph_aux_inode :=
      { version := ci.i_version
        mtime_sec := u64_of_s64 ci.vfs_inode.i_mtime.tv_sec
        mtime_nsec := u64_of_s64 ci.vfs_inode.i_mtime.tv_nsec }
    { ci := { ci with fscache := acquired }
      calls := [fscache_call.acquire_cookie (cookie_parent.cookie fsc.fscache)
        cookie_type.FSCACHE_COOKIE_TYPE_DATAFILE "CEPH.inode" (index_key.vino ci.i_vino)
        (some aux) (i_size_read ci.vfs_inode)]
      diag := warn }

/-- The function `ceph_fscache_unregister_inode_cookie` (cache.c:177): the cookie is swapped
with NULL and released if there was one. -/
def ceph_fscache_unregister_inode_cookie (ci : ceph_inode_info) : inode_effect :=
  let cookie := ci.fscache
  let ci1 := { ci with fscache := none }
  if cookie.isSome then
    { ci := ci1, calls := [fscache_call.relinquish_cookie cookie false], diag := [] }
  else
    { ci := ci1, calls := [], diag := [] }

/-- Modelled from the spec: the inline wrapper `fscache_invalidate` is declared outside these
sources, in the header of the caching service.  As the spec has it for every operation on an
absent handle, it is a no-op when the cookie is NULL; with a cookie it enters the invalidate
operation of the service with its arguments. -/
def fscache_invalidate (cookie : fscache_cookie_ptr) (aux : ceph_aux_inode) (size : Int)
    (flags : Nat) : List fscache_call :=
  if fscache_cookie_valid cookie then [fscache_call.invalidate cookie aux size flags] else []

/-- The function `ceph_fscache_invalidate` (cache.c:185): it builds the coherency data and
hands the cookie, NULL or not, to `fscache_invalidate`. -/
def ceph_fscache_invalidate (ci : ceph_inode_info) (flags : Nat) : inode_effect :=
  let aux : ceph_aux_inode :=
    { version := ci.i_version
      mtime_sec := u64_of_s64 ci.vfs_inode.i_mtime.tv_sec
      mtime_nsec := u64_of_s64 ci.vfs_inode.i_mtime.tv_nsec }
  { ci := ci
    calls := fscache_invalidate ci.fscache aux (i_size_read ci.vfs_inode) flags
    diag := [] }

/-- The inline `ceph_fscache_resize` (cache.h:46). -/
def ceph_fscache_resize (ci : ceph_inode_info) : inode_effect :=
  let cookie := ceph_fscache_cookie ci
  if cookie.isSome then
    let r1 := ceph_fscache_use_cookie ci true
    let c2 := fscache_call.resize_cookie cookie (i_size_read r1.ci.vfs_inode)
    let r3 := ceph_fscache_unuse_cookie r1.ci true
    { ci := r3.ci, calls := r1.calls ++ [c2] ++ r3.calls, diag := r1.diag ++ r3.diag }
  else
    { ci := ci, calls := [], diag := [] }

/-! ## The identity registry -/

/-- The length computed at cache.c:97, `fscache_uniq ? strlen(fscache_uniq) : 0`. -/
def uniq_len_of (fscache_uniq : Option (List Nat)) : Nat :=
  match fscache_uniq with
  | some s => strlen s
  | none => 0

/-- The body of the loop at cache.c:102-114 for one entry: `false` when one of the three
`continue` statements is taken, `true` when the entry is found to hold the same identity. -/
def scan_entry (ent : ceph_fscache_entry) (fsid : ceph_fsid) (fscache_uniq : Option (List Nat))
    (uniq_len : Nat) : Bool :=
  if memcmp ent.fsid.fsid fsid.fsid sizeof_ceph_fsid != 0 then false
  else if ent.uniq_len != uniq_len then false
  else if uniq_len != 0 && memcmp ent.uniquifier (fscache_uniq.getD []) uniq_len != 0 then false
  else true

/-- The entry built at cache.c:116-126 from zeroed memory: the fsid is copied; the uniquifier
and its length are written only when the length is positive, and stay zero otherwise. -/
def new_entry (fsid : ceph_fsid) (fscache_uniq : Option (List Nat)) : ceph_fscache_entry :=
  if 0 < uniq_len_of fscache_uniq then
    { fscache := none
      uniq_len := uniq_len_of fscache_uniq
      fsid := fsid
      uniquifier := memcpy (fscache_uniq.getD []) (uniq_len_of fscache_uniq)
      alloc := by
        cases fscache_uniq with
        | none => rfl
        | some s => exact List.length_take_of_le (List.takeWhile_sublist _).length_le }
  else
    { fscache := none, uniq_len := 0, fsid := fsid, uniquifier := [], alloc := rfl }

/-- What `ceph_fscache_register_fs` leaves behind: its return value, the client, the list
`ceph_fscache_list`, the operations of the service it entered and what it reported. -/
structure register_fs_result where
  ret : Int
  fsc : ceph_fs_client
  list : List ceph_fscache_entry
  calls : List fscache_call
  diag : List diagnostic
deriving DecidableEq

/-- The function `ceph_fscache_register_fs` (cache.c:93), run on the list `ceph_fscache_list`
under the lock.  `kzalloc_ok` tells whether the allocation at cache.c:116 succeeds and
`acquired` is what `fscache_acquire_cookie` answers if it is called. -/
def ceph_fscache_register_fs (ceph_fscache_list : List ceph_fscache_entry)
    (fsc : ceph_fs_client) (kzalloc_ok : Bool) (acquired : fscache_cookie_ptr) :
    register_fs_result :=
  let fsid := fsc.fsid
  let fscache_uniq := fsc.fscache_uniq
  let uniq_len := uniq_len_of fscache_uniq
  if ceph_fscache_list.any (fun ent => scan_entry ent fsid fscache_uniq uniq_len) then
    { ret := -EBUSY, fsc := fsc, list := ceph_fscache_list, calls := [],
      diag := [diagnostic.errorfc_already_registered] }
  else if !kzalloc_ok then
    { ret := -ENOMEM, fsc := fsc, list := ceph_fscache_list, calls := [], diag := [] }
  else
    let ent := new_entry fsid fscache_uniq
    let call := fscache_call.acquire_cookie cookie_parent.primary_index
      cookie_type.FSCACHE_COOKIE_TYPE_INDEX "CEPH.fsid"
      (index_key.bytes (ent.fsid.fsid ++ ent.uniquifier)) none 0
    let fsc1 := { fsc with fscache := acquired }
    if fsc1.fscache.isSome then
      { ret := 0, fsc := fsc1
        list := ceph_fscache_list ++ [{ ent with fscache := fsc1.fscache }]
        calls := [call], diag := [] }
    else
      { ret := 0, fsc := fsc1, list := ceph_fscache_list, calls := [call],
        diag := [diagnostic.pr_warn_unable_to_set_primary_index] }

/-- The loop at cache.c:206-213: the first entry whose cookie is `cookie` is unlinked and
freed; the second component is the flag `found`. -/
def unlink_first (cookie : fscache_cookie_ptr) :
    List ceph_fscache_entry → List ceph_fscache_entry × Bool
  | [] => ([], false)
  | ent :: rest =>
    if ent.fscache = cookie then (rest, true)
    else ((ent :: (unlink_first cookie rest).1), (unlink_first cookie rest).2)

/-- What `ceph_fscache_unregister_fs` leaves behind. -/
structure unregister_fs_result where
  fsc : ceph_fs_client
  list : List ceph_fscache_entry
  calls : List fscache_call
  diag : List diagnostic
deriving DecidableEq

/-- The function `ceph_fscache_unregister_fs` (cache.c:199). -/
def ceph_fscache_unregister_fs (ceph_fscache_list : List ceph_fscache_entry)
    (fsc : ceph_fs_client) : unregister_fs_result :=
  if fscache_cookie_valid fsc.fscache then
    let r := unlink_first fsc.fscache ceph_fscache_list
    { fsc := { fsc with fscache := none }
      list := r.1
      calls := [fscache_call.__fscache_relinquish_cookie fsc.fscache false]
      diag := if !r.2 then [diagnostic.violation_not_found] else [] }
  else
    { fsc := { fsc with fscache := none }, list := ceph_fscache_list, calls := [], diag := [] }

/-- The filesystem identity an entry stands for: its fsid together with its uniquifier. -/
def ceph_fscache_entry.identity (ent : ceph_fscache_entry) : ceph_fsid × List Nat :=
  (ent.fsid, ent.uniquifier)

/-- The bytes of the C string at `p`, up to its terminator; no bytes when `p` is NULL. -/
def c_string (p : Option (List Nat)) : List Nat :=
  (p.getD []).takeWhile (fun c => c != 0)

/-- The filesystem identity a client mounts with: its fsid together with the bytes of the
string `fscache_uniq`. -/
def ceph_fs_client.identity (fsc : ceph_fs_client) : ceph_fsid × List Nat :=
  (fsc.fsid, c_string fsc.fscache_uniq)

/-- One step of the registry: a mount registering or an unmount unregistering. -/
inductive registry_step : List ceph_fscache_entry → List ceph_fscache_entry → Prop where
  | register (l : List ceph_fscache_entry) (fsc : ceph_fs_client) (kzalloc_ok : Bool)
      (acquired : fscache_cookie_ptr) :
      registry_step l (ceph_fscache_register_fs l fsc kzalloc_ok acquired).list
  | unregister (l : List ceph_fscache_entry) (fsc : ceph_fs_client) :
      registry_step l (ceph_fscache_unregister_fs l fsc).list

/-- The registry states reachable from the empty list by register and unregister calls. -/
inductive reachable : List ceph_fscache_entry → Prop where
  | empty : reachable []
  | step {l l2 : List ceph_fscache_entry} : reachable l → registry_step l l2 → reachable l2

/-- The registry histories during which the cookie `H` is not unregistered: any number of
register calls, and of unregister calls by clients whose session cookie is not `H`. -/
inductive steps_keeping (H : Nat) : List ceph_fscache_entry → List ceph_fscache_entry → Prop where
  | refl (l : List ceph_fscache_entry) : steps_keeping H l l
  | register {l l2 : List ceph_fscache_entry} (fsc : ceph_fs_client) (kzalloc_ok : Bool)
      (acquired : fscache_cookie_ptr) : steps_keeping H l l2 →
      steps_keeping H l (ceph_fscache_register_fs l2 fsc kzalloc_ok acquired).list
  | unregister {l l2 : List ceph_fscache_entry} (fsc : ceph_fs_client) :
      fsc.fscache ≠ some H → steps_keeping H l l2 →
      steps_keeping H l (ceph_fscache_unregister_fs l2 fsc).list

/-! ## Concrete inputs -/

/-- The fsid `0xABCD` of the registration scenario, as sixteen bytes. -/
def fsid_ABCD : ceph_fsid :=
  ⟨[0xAB, 0xCD, 0, 0, 0, 0, 0, 0, 0, 0, 0, 0, 0, 0, 0, 0], rfl⟩

/-- A client mounting `fsid_ABCD` with the empty uniquifier and no session cookie yet. -/
def client_plain : ceph_fs_client :=
  { fsid := fsid_ABCD, fscache_uniq := some [], fscache := none }

/-- A client mounting `fsid_ABCD` with the uniquifier "alt". -/
def client_alt : ceph_fs_client :=
  { fsid := fsid_ABCD, fscache_uniq := some [97, 108, 116], fscache := none }

/-- A client mounting `fsid_ABCD` with the uniquifier "al", a proper initial part of "alt". -/
def client_al : ceph_fs_client :=
  { fsid := fsid_ABCD, fscache_uniq := some [97, 108], fscache := none }

/-- The registry after `client_alt` registered and the service granted the cookie `1`. -/
def registry_alt : List ceph_fscache_entry :=
  (ceph_fscache_register_fs [] client_alt true (some 1)).list

/-- The result of the first step of the scenario: `client_plain` registers on the empty
registry and the service grants the cookie `1`. -/
def scenario_H1 : register_fs_result :=
  ceph_fscache_register_fs [] client_plain true (some 1)

/-- The result of the next step of the scenario: with the cookie `1` still registered,
`client_alt` registers and the service grants the cookie `2`. -/
def scenario_H2 : register_fs_result :=
  ceph_fscache_register_fs scenario_H1.list client_alt true (some 2)

/-- An object of the scenarios: a regular file (mode 0100644) that is being instantiated
(`I_NEW` set), at version 5, with no cookie. -/
def inode_new : ceph_inode_info :=
  { vfs_inode :=
      { i_mode := 0o100644
        i_state := 8
        i_mtime := { tv_sec := 1700000000, tv_nsec := 250 }
        i_size := 4096 }
    i_vino := { ino := 1099511627776, snap := 0 }
    i_version := 5
    fscache := none }

/-- The same object once it holds the cookie `3`. -/
def inode_registered : ceph_inode_info := { inode_new with fscache := some 3 }

/-- A client whose session holds the cookie `9`. -/
def client_live : ceph_fs_client := { client_plain with fscache := some 9 }

/-- Whether a recorded call is an acquire. -/
def fscache_call.is_acquire : fscache_call → Bool
  | fscache_call.acquire_cookie _ _ _ _ _ _ => true
  | _ => false

/-- A sequence of `n` calls of `ceph_fscache_unregister_inode_cookie` on the same object, with
the calls of all of them in order. -/
def unregister_inode_cookie_repeat : Nat → ceph_inode_info → inode_effect
  | 0, ci => { ci := ci, calls := [], diag := [] }
  | n + 1, ci =>
    let r := ceph_fscache_unregister_inode_cookie ci
    let rest := unregister_inode_cookie_repeat n r.ci
    { ci := rest.ci, calls := r.calls ++ rest.calls, diag := r.diag ++ rest.diag }

/-! ## Helper lemmas -/

theorem memcmp_eq_zero_iff (n : Nat) : ∀ (a b : List Nat), n ≤ a.length → n ≤ b.length →
    (memcmp a b n = 0 ↔ a.take n = b.take n) := by
  induction n with
  | zero => intro a b _ _; simp [memcmp]
  | succ n ih =>
    intro a b ha hb
    cases a with
    | nil => simp at ha
    | cons x as =>
      cases b with
      | nil => simp at hb
      | cons y bs =>
        simp only [List.length_cons, Nat.add_le_add_iff_right] at ha hb
        by_cases hxy : x = y
        · subst hxy
          simp [memcmp, ih as bs ha hb]
        · have hne : (x : Int) - (y : Int) ≠ 0 := by omega
          simp [memcmp, hxy, hne]

theorem ceph_fsid_eq_of_bytes {a b : ceph_fsid} (h : a.fsid = b.fsid) : a = b := by
  cases a; cases b; cases h; rfl

theorem memcmp_fsid (a b : ceph_fsid) :
    memcmp a.fsid b.fsid sizeof_ceph_fsid = 0 ↔ a = b := by
  have ha : sizeof_ceph_fsid ≤ a.fsid.length := by simp [a.size, sizeof_ceph_fsid]
  have hb : sizeof_ceph_fsid ≤ b.fsid.length := by simp [b.size, sizeof_ceph_fsid]
  rw [memcmp_eq_zero_iff _ _ _ ha hb]
  have ta : a.fsid.take sizeof_ceph_fsid = a.fsid := List.take_of_length_le (by simp [a.size, sizeof_ceph_fsid])
  have tb : b.fsid.take sizeof_ceph_fsid = b.fsid := List.take_of_length_le (by simp [b.size, sizeof_ceph_fsid])
  rw [ta, tb]
  constructor
  · exact ceph_fsid_eq_of_bytes
  · intro h; rw [h]

theorem uniq_len_of_le (p : Option (List Nat)) : uniq_len_of p ≤ (p.getD []).length := by
  cases p with
  | none => simp [uniq_len_of]
  | some s => exact (List.takeWhile_sublist _).length_le

theorem take_uniq_len_of (p : Option (List Nat)) :
    (p.getD []).take (uniq_len_of p) = c_string p := by
  cases p with
  | none => simp [uniq_len_of, c_string]
  | some s =>
    have h := (List.prefix_iff_eq_take).1 (List.takeWhile_prefix (l := s) (fun c => c != 0))
    simpa [uniq_len_of, c_string, strlen] using h.symm

theorem length_c_string (p : Option (List Nat)) : (c_string p).length = uniq_len_of p := by
  cases p with
  | none => simp [uniq_len_of, c_string]
  | some s => simp [uniq_len_of, c_string, strlen]

/-- The scan accepts an entry exactly when it holds the identity of the client. -/
theorem scan_entry_iff (ent : ceph_fscache_entry) (fsc : ceph_fs_client) :
    scan_entry ent fsc.fsid fsc.fscache_uniq (uniq_len_of fsc.fscache_uniq) = true ↔
      ent.identity = fsc.identity := by
  have hlen := ent.alloc
  have hle := uniq_len_of_le fsc.fscache_uniq
  have htk := take_uniq_len_of fsc.fscache_uniq
  have hcl := length_c_string fsc.fscache_uniq
  simp only [ceph_fscache_entry.identity, ceph_fs_client.identity, Prod.mk.injEq]
  unfold scan_entry
  by_cases h1 : memcmp ent.fsid.fsid fsc.fsid.fsid sizeof_ceph_fsid = 0
  · have hf : ent.fsid = fsc.fsid := (memcmp_fsid _ _).1 h1
    have h1r : memcmp fsc.fsid.fsid fsc.fsid.fsid sizeof_ceph_fsid = 0 := (memcmp_fsid _ _).2 rfl
    by_cases h2 : ent.uniq_len = uniq_len_of fsc.fscache_uniq
    · have hm := memcmp_eq_zero_iff (uniq_len_of fsc.fscache_uniq) ent.uniquifier
        (fsc.fscache_uniq.getD []) (by omega) hle
      have hte : ent.uniquifier.take (uniq_len_of fsc.fscache_uniq) = ent.uniquifier :=
        List.take_of_length_le (by omega)
      rw [hte, htk] at hm
      by_cases h3 : uniq_len_of fsc.fscache_uniq = 0
      · have e1 : ent.uniquifier = [] := List.length_eq_zero.1 (by omega)
        have e2 : c_string fsc.fscache_uniq = [] := List.length_eq_zero.1 (by omega)
        simp [h1, h1r, h2, h3, hf, e1, e2]
      · simp [h1, h1r, h2, h3, hf, hm]
    · have hne : ent.uniquifier ≠ c_string fsc.fscache_uniq := by
        intro he; apply h2; rw [← hlen, he, hcl]
      simp [h1, h2, hne]
  · have hf : ent.fsid ≠ fsc.fsid := fun he => h1 ((memcmp_fsid _ _).2 he)
    simp [h1, hf]

theorem scan_any_iff (l : List ceph_fscache_entry) (fsc : ceph_fs_client) :
    l.any (fun ent => scan_entry ent fsc.fsid fsc.fscache_uniq (uniq_len_of fsc.fscache_uniq))
      = true ↔ ∃ ent ∈ l, ent.identity = fsc.identity := by
  simp only [List.any_eq_true, scan_entry_iff]

theorem new_entry_fsid (fsid : ceph_fsid) (p : Option (List Nat)) :
    (new_entry fsid p).fsid = fsid := by
  unfold new_entry; split <;> rfl

theorem new_entry_uniquifier (fsid : ceph_fsid) (p : Option (List Nat)) :
    (new_entry fsid p).uniquifier = c_string p := by
  unfold new_entry
  split
  · exact take_uniq_len_of p
  · have h := length_c_string p
    exact (List.length_eq_zero.1 (by omega)).symm

theorem new_entry_uniq_len (fsid : ceph_fsid) (p : Option (List Nat)) :
    (new_entry fsid p).uniq_len = uniq_len_of p := by
  unfold new_entry
  split
  · rfl
  · show 0 = uniq_len_of p
    omega

/-- The three outcomes of `ceph_fscache_register_fs`, by the result of the scan. -/
theorem register_fs_cases (l : List ceph_fscache_entry) (fsc : ceph_fs_client)
    (kzalloc_ok : Bool) (acquired : fscache_cookie_ptr) :
    ((∃ ent ∈ l, ent.identity = fsc.identity) ∧
      ceph_fscache_register_fs l fsc kzalloc_ok acquired =
        { ret := -EBUSY, fsc := fsc, list := l, calls := [],
          diag := [diagnostic.errorfc_already_registered] }) ∨
    ((∀ ent ∈ l, ent.identity ≠ fsc.identity) ∧ kzalloc_ok = false ∧
      ceph_fscache_register_fs l fsc kzalloc_ok acquired =
        { ret := -ENOMEM, fsc := fsc, list := l, calls := [], diag := [] }) ∨
    ((∀ ent ∈ l, ent.identity ≠ fsc.identity) ∧ kzalloc_ok = true ∧
      (ceph_fscache_register_fs l fsc kzalloc_ok acquired).ret = 0 ∧
      (ceph_fscache_register_fs l fsc kzalloc_ok acquired).fsc = { fsc with fscache := acquired } ∧
      (ceph_fscache_register_fs l fsc kzalloc_ok acquired).calls =
        [fscache_call.acquire_cookie cookie_parent.primary_index
          cookie_type.FSCACHE_COOKIE_TYPE_INDEX "CEPH.fsid"
          (index_key.bytes (fsc.fsid.fsid ++ c_string fsc.fscache_uniq)) none 0] ∧
      (ceph_fscache_register_fs l fsc kzalloc_ok acquired).list =
        (if acquired.isSome then
          l ++ [{ new_entry fsc.fsid fsc.fscache_uniq with fscache := acquired }]
        else l)) := by
  by_cases hany : l.any (fun ent =>
      scan_entry ent fsc.fsid fsc.fscache_uniq (uniq_len_of fsc.fscache_uniq)) = true
  · left
    refine ⟨(scan_any_iff l fsc).1 hany, ?_⟩
    simp [ceph_fscache_register_fs, hany]
  · right
    have hno : ∀ ent ∈ l, ent.identity ≠ fsc.identity := by
      intro ent hent he
      exact hany ((scan_any_iff l fsc).2 ⟨ent, hent, he⟩)
    cases kzalloc_ok with
    | false =>
      left
      refine ⟨hno, rfl, ?_⟩
      simp [ceph_fscache_register_fs, hany]
    | true =>
      right
      refine ⟨hno, rfl, ?_⟩
      cases acquired with
      | none =>
        simp [ceph_fscache_register_fs, hany, new_entry_fsid, new_entry_uniquifier]
      | some c =>
        simp [ceph_fscache_register_fs, hany, new_entry_fsid, new_entry_uniquifier]

/-- The loop of `ceph_fscache_unregister_fs` either finds nothing and leaves the list alone, or
unlinks exactly the first entry that references the cookie. -/
theorem unlink_first_cases (c : fscache_cookie_ptr) (l : List ceph_fscache_entry) :
    ((∀ ent ∈ l, ent.fscache ≠ c) ∧ unlink_first c l = (l, false)) ∨
    (∃ pre ent post, l = pre ++ ent :: post ∧ (∀ e ∈ pre, e.fscache ≠ c) ∧ ent.fscache = c ∧
      unlink_first c l = (pre ++ post, true)) := by
  induction l with
  | nil => left; exact ⟨by simp, rfl⟩
  | cons a rest ih =>
    by_cases ha : a.fscache = c
    · right
      exact ⟨[], a, rest, rfl, by simp, ha, by simp [unlink_first, ha]⟩
    · rcases ih with ⟨hall, heq⟩ | ⟨pre, ent, post, hl, hpre, hent, heq⟩
      · left
        refine ⟨?_, by simp [unlink_first, ha, heq]⟩
        intro ent hent
        rcases List.mem_cons.1 hent with h | h
        · rw [h]; exact ha
        · exact hall ent h
      · right
        refine ⟨a :: pre, ent, post, by rw [hl]; rfl, ?_, hent, by simp [unlink_first, ha, heq]⟩
        intro e he
        rcases List.mem_cons.1 he with h | h
        · rw [h]; exact ha
        · exact hpre e h

theorem unlink_first_sublist (c : fscache_cookie_ptr) (l : List ceph_fscache_entry) :
    List.Sublist (unlink_first c l).1 l := by
  rcases unlink_first_cases c l with ⟨_, heq⟩ | ⟨pre, ent, post, hl, _, _, heq⟩
  · rw [heq]
  · rw [heq, hl]
    exact List.Sublist.append (List.Sublist.refl pre) (List.sublist_cons_self ent post)

theorem unregister_fs_sublist (l : List ceph_fscache_entry) (fsc : ceph_fs_client) :
    List.Sublist (ceph_fscache_unregister_fs l fsc).list l := by
  unfold ceph_fscache_unregister_fs
  split
  · exact unlink_first_sublist _ _
  · exact List.Sublist.refl l

/-- The property the registry keeps: no two entries hold the same identity and every entry
references a cookie. -/
theorem registry_step_invariant {l l2 : List ceph_fscache_entry} (hs : registry_step l l2)
    (h1 : l.Pairwise (fun a b => a.identity ≠ b.identity))
    (h2 : ∀ ent ∈ l, ent.fscache ≠ none) :
    l2.Pairwise (fun a b => a.identity ≠ b.identity) ∧ ∀ ent ∈ l2, ent.fscache ≠ none := by
  cases hs with
  | register fsc kzalloc_ok acquired =>
    rcases register_fs_cases l fsc kzalloc_ok acquired with ⟨_, heq⟩ | ⟨_, _, heq⟩ |
      ⟨hno, _, _, _, _, hlist⟩
    · rw [heq]; exact ⟨h1, h2⟩
    · rw [heq]; exact ⟨h1, h2⟩
    · rw [hlist]
      cases acquired with
      | none => exact ⟨h1, h2⟩
      | some c =>
        simp only [Option.isSome_some, if_true]
        constructor
        · rw [List.pairwise_append]
          refine ⟨h1, List.pairwise_singleton _ _, ?_⟩
          intro a ha b hb
          rw [List.mem_singleton] at hb
          have hid : b.identity = fsc.identity := by
            rw [hb]
            simp only [ceph_fscache_entry.identity, ceph_fs_client.identity, new_entry_fsid,
              new_entry_uniquifier]
          rw [hid]
          exact hno a ha
        · intro ent hent
          rcases List.mem_append.1 hent with h | h
          · exact h2 ent h
          · rw [List.mem_singleton] at h
            rw [h]
            simp
  | unregister fsc =>
    have hsub := unregister_fs_sublist l fsc
    exact ⟨h1.sublist hsub, fun ent hent => h2 ent (hsub.subset hent)⟩

/-- While the cookie `H` is not unregistered, the entry that references it stays the first one
to do so and the only one with its identity. -/
theorem steps_keeping_invariant {H : Nat} {entA : ceph_fscache_entry}
    (hH : entA.fscache = some H) {l1 l2 : List ceph_fscache_entry}
    (hs : steps_keeping H l1 l2)
    (h1 : l1.find? (fun e => decide (e.fscache = some H)) = some entA)
    (h2 : l1.filter (fun e => decide (e.identity = entA.identity)) = [entA]) :
    l2.find? (fun e => decide (e.fscache = some H)) = some entA ∧
    l2.filter (fun e => decide (e.identity = entA.identity)) = [entA] := by
  induction hs with
  | refl => exact ⟨h1, h2⟩
  | @register l2 fsc kzalloc_ok acquired _ ih =>
    obtain ⟨ih1, ih2⟩ := ih
    rcases register_fs_cases l2 fsc kzalloc_ok acquired with ⟨_, heq⟩ | ⟨_, _, heq⟩ |
      ⟨hno, _, _, _, _, hlist⟩
    · rw [heq]; exact ⟨ih1, ih2⟩
    · rw [heq]; exact ⟨ih1, ih2⟩
    · rw [hlist]
      cases acquired with
      | none => exact ⟨ih1, ih2⟩
      | some c =>
        have hmem : entA ∈ l2 := by
          have : entA ∈ l2.filter (fun e => decide (e.identity = entA.identity)) := by
            rw [ih2]; exact List.mem_singleton.2 rfl
          exact (List.mem_filter.1 this).1
        have hne : ({ new_entry fsc.fsid fsc.fscache_uniq with fscache := some c } :
            ceph_fscache_entry).identity ≠ entA.identity := by
          intro he
          apply hno entA hmem
          rw [← he]
          simp only [ceph_fscache_entry.identity, ceph_fs_client.identity, new_entry_fsid,
            new_entry_uniquifier]
        simp only [Option.isSome_some, if_true]
        constructor
        · rw [List.find?_append, ih1]; rfl
        · rw [List.filter_append, ih2]
          simp [List.filter_cons, hne]
  | @unregister l2 fsc hc _ ih =>
    obtain ⟨ih1, ih2⟩ := ih
    unfold ceph_fscache_unregister_fs
    split
    · rcases unlink_first_cases fsc.fscache l2 with ⟨_, heq⟩ | ⟨pre, ent, post, hl, _, hent, heq⟩
      · simp only [heq]; exact ⟨ih1, ih2⟩
      · simp only [heq]
        have hf : ¬ ent.fscache = some H := by rw [hent]; exact hc
        have hid : ¬ ent.identity = entA.identity := by
          intro he
          have : ent ∈ l2.filter (fun e => decide (e.identity = entA.identity)) := by
            rw [List.mem_filter, hl]
            exact ⟨by simp, by simp [he]⟩
          rw [ih2, List.mem_singleton] at this
          rw [this] at hf
          exact hf hH
        rw [hl] at ih1 ih2
        constructor
        · simpa [List.find?_append, List.find?_cons, hf] using ih1
        · simpa [List.filter_append, List.filter_cons, hid] using ih2
    · exact ⟨ih1, ih2⟩

theorem enomem_ne_ebusy : (-ENOMEM : Int) ≠ -EBUSY := by decide

theorem zero_ne_ebusy : (0 : Int) ≠ -EBUSY := by decide

theorem enomem_ne_zero : (-ENOMEM : Int) ≠ 0 := by decide

/-! ## The identity registry: claims -/

/-- C1: for every registry state, client identity, allocation outcome (in particular a
successful one) and service answer, `ceph_fscache_register_fs` returns `-EBUSY` exactly when the
registry already holds an entry with the same fsid and a uniquifier of the same length and the
same bytes; so when every entry differs from the client in its uniquifier the call is not
rejected; and when it returns `-EBUSY` the registry and the client are unchanged and no call
reached the service. -/
theorem register_fs_ebusy_iff_identity_present (l : List ceph_fscache_entry)
    (fsc : ceph_fs_client) (kzalloc_ok : Bool) (acquired : fscache_cookie_ptr) :
    ((ceph_fscache_register_fs l fsc kzalloc_ok acquired).ret = -EBUSY ↔
      ∃ ent ∈ l, ent.fsid = fsc.fsid ∧
        ent.uniquifier.length = (c_string fsc.fscache_uniq).length ∧
        ent.uniquifier = c_string fsc.fscache_uniq) ∧
    ((∀ ent ∈ l, ent.fsid = fsc.fsid → ent.uniquifier ≠ c_string fsc.fscache_uniq) →
      (ceph_fscache_register_fs l fsc kzalloc_ok acquired).ret ≠ -EBUSY) ∧
    ((ceph_fscache_register_fs l fsc kzalloc_ok acquired).ret = -EBUSY →
      (ceph_fscache_register_fs l fsc kzalloc_ok acquired).list = l ∧
      (ceph_fscache_register_fs l fsc kzalloc_ok acquired).calls = [] ∧
      (ceph_fscache_register_fs l fsc kzalloc_ok acquired).fsc = fsc) := by
  have key : (ceph_fscache_register_fs l fsc kzalloc_ok acquired).ret = -EBUSY ↔
      ∃ ent ∈ l, ent.identity = fsc.identity := by
    rcases register_fs_cases l fsc kzalloc_ok acquired with ⟨hex, heq⟩ | ⟨hno, _, heq⟩ |
      ⟨hno, _, hret, _⟩
    · rw [heq]; exact ⟨fun _ => hex, fun _ => rfl⟩
    · rw [heq]
      constructor
      · intro h; exact absurd h enomem_ne_ebusy
      · rintro ⟨ent, hent, he⟩; exact absurd he (hno ent hent)
    · rw [hret]
      constructor
      · intro h; exact absurd h zero_ne_ebusy
      · rintro ⟨ent, hent, he⟩; exact absurd he (hno ent hent)
  refine ⟨?_, ?_, ?_⟩
  · rw [key]
    constructor
    · rintro ⟨ent, hent, he⟩
      simp only [ceph_fscache_entry.identity, ceph_fs_client.identity, Prod.mk.injEq] at he
      exact ⟨ent, hent, he.1, by rw [he.2], he.2⟩
    · rintro ⟨ent, hent, h1, _, h3⟩
      exact ⟨ent, hent, by
        simp only [ceph_fscache_entry.identity, ceph_fs_client.identity, Prod.mk.injEq]
        exact ⟨h1, h3⟩⟩
  · intro hdiff hbusy
    obtain ⟨ent, hent, he⟩ := key.1 hbusy
    simp only [ceph_fscache_entry.identity, ceph_fs_client.identity, Prod.mk.injEq] at he
    exact hdiff ent hent he.1 he.2
  · intro hbusy
    rcases register_fs_cases l fsc kzalloc_ok acquired with ⟨_, heq⟩ | ⟨_, _, heq⟩ |
      ⟨_, _, hret, _⟩
    · rw [heq]; exact ⟨rfl, rfl, rfl⟩
    · rw [heq] at hbusy; exact absurd hbusy enomem_ne_ebusy
    · rw [hret] at hbusy; exact absurd hbusy zero_ne_ebusy

/-- C1 at concrete inputs: with "alt" registered under `fsid_ABCD`, the same fsid with the
empty uniquifier and with the proper initial part "al" are not rejected, while "alt" is. -/
theorem register_fs_ebusy_iff_identity_present_witness :
    (ceph_fscache_register_fs registry_alt client_plain true (some 2)).ret ≠ -EBUSY ∧
    (ceph_fscache_register_fs registry_alt client_al true (some 2)).ret ≠ -EBUSY ∧
    (ceph_fscache_register_fs registry_alt client_alt true (some 2)).ret = -EBUSY ∧
    (ceph_fscache_register_fs registry_alt client_alt true (some 2)).list = registry_alt :=
  ⟨(register_fs_ebusy_iff_identity_present registry_alt client_plain true (some 2)).2.1
      (by decide),
    (register_fs_ebusy_iff_identity_present registry_alt client_al true (some 2)).2.1
      (by decide),
    by decide,
    ((register_fs_ebusy_iff_identity_present registry_alt client_alt true (some 2)).2.2
      (by decide)).1⟩

/-- C4: for every registry state and every client whose identity is not registered yet: when
the service declines, `ceph_fscache_register_fs` returns 0, the session cookie of the client is
NULL and the registry is as it was; when the allocation of the entry fails it returns `-ENOMEM`
and the registry is as it was; when the service grants the cookie `h` it returns 0, the session
cookie is `h` and exactly one entry, holding the identity of the client and `h`, is appended. -/
theorem register_fs_outcomes (l : List ceph_fscache_entry) (fsc : ceph_fs_client)
    (hnew : ∀ ent ∈ l, ¬(ent.fsid = fsc.fsid ∧ ent.uniquifier = c_string fsc.fscache_uniq)) :
    ((ceph_fscache_register_fs l fsc true none).ret = 0 ∧
      (ceph_fscache_register_fs l fsc true none).fsc.fscache = none ∧
      (ceph_fscache_register_fs l fsc true none).list = l) ∧
    (∀ acquired : fscache_cookie_ptr,
      (ceph_fscache_register_fs l fsc false acquired).ret = -ENOMEM ∧
      (ceph_fscache_register_fs l fsc false acquired).list = l) ∧
    (∀ h : Nat,
      (ceph_fscache_register_fs l fsc true (some h)).ret = 0 ∧
      (ceph_fscache_register_fs l fsc true (some h)).fsc.fscache = some h ∧
      ∃ ent : ceph_fscache_entry,
        (ceph_fscache_register_fs l fsc true (some h)).list = l ++ [ent] ∧
        ent.fsid = fsc.fsid ∧ ent.uniq_len = uniq_len_of fsc.fscache_uniq ∧
        ent.uniquifier = c_string fsc.fscache_uniq ∧ ent.fscache = some h) := by
  have hno : ¬ ∃ ent ∈ l, ent.identity = fsc.identity := by
    rintro ⟨ent, hent, he⟩
    simp only [ceph_fscache_entry.identity, ceph_fs_client.identity, Prod.mk.injEq] at he
    exact hnew ent hent he
  refine ⟨?_, ?_, ?_⟩
  · rcases register_fs_cases l fsc true none with ⟨hex, _⟩ | ⟨_, hk, _⟩ |
      ⟨_, _, hret, hfsc, _, hlist⟩
    · exact absurd hex hno
    · exact absurd hk (by decide)
    · exact ⟨hret, by rw [hfsc], by simpa using hlist⟩
  · intro acquired
    rcases register_fs_cases l fsc false acquired with ⟨hex, _⟩ | ⟨_, _, heq⟩ |
      ⟨_, hk, _⟩
    · exact absurd hex hno
    · rw [heq]; exact ⟨rfl, rfl⟩
    · exact absurd hk (by decide)
  · intro h
    rcases register_fs_cases l fsc true (some h) with ⟨hex, _⟩ | ⟨_, hk, _⟩ |
      ⟨_, _, hret, hfsc, _, hlist⟩
    · exact absurd hex hno
    · exact absurd hk (by decide)
    · refine ⟨hret, by rw [hfsc], _, by simpa using hlist, ?_, ?_, ?_, rfl⟩
      · exact new_entry_fsid _ _
      · exact new_entry_uniq_len _ _
      · exact new_entry_uniquifier _ _

/-- C4 at a concrete input: with "alt" registered, `client_plain` gets 0 and no entry when the
service declines, `-ENOMEM` when the allocation fails, and one more entry when the cookie `7`
is granted. -/
theorem register_fs_outcomes_witness :
    (∀ ent ∈ registry_alt,
      ¬(ent.fsid = client_plain.fsid ∧ ent.uniquifier = c_string client_plain.fscache_uniq)) ∧
    (ceph_fscache_register_fs registry_alt client_plain true none).list = registry_alt ∧
    (ceph_fscache_register_fs registry_alt client_plain false (some 7)).ret = -ENOMEM ∧
    (ceph_fscache_register_fs registry_alt client_plain true (some 7)).fsc.fscache = some 7 ∧
    (ceph_fscache_register_fs registry_alt client_plain true (some 7)).list.length = 2 :=
  ⟨by decide,
    (register_fs_outcomes registry_alt client_plain (by decide)).1.2.2,
    ((register_fs_outcomes registry_alt client_plain (by decide)).2.1 (some 7)).1,
    ((register_fs_outcomes registry_alt client_plain (by decide)).2.2 7).2.1,
    by decide⟩

/-- C2: in every registry state reachable from the empty registry by calls of
`ceph_fscache_register_fs` and `ceph_fscache_unregister_fs`, with any clients, any allocation
outcomes and any answers of the service, no two entries hold the same identity (same fsid, same
uniquifier length and same uniquifier bytes) and every entry references a cookie that is not
NULL. -/
theorem reachable_registry_invariant (l : List ceph_fscache_entry) (h : reachable l) :
    l.Pairwise (fun a b =>
      ¬(a.fsid = b.fsid ∧ a.uniq_len = b.uniq_len ∧ a.uniquifier = b.uniquifier)) ∧
    ∀ ent ∈ l, ent.fscache ≠ none := by
  have key : l.Pairwise (fun a b => a.identity ≠ b.identity) ∧
      ∀ ent ∈ l, ent.fscache ≠ none := by
    induction h with
    | empty => exact ⟨List.Pairwise.nil, by simp⟩
    | step _ hs ih => exact registry_step_invariant hs ih.1 ih.2
  refine ⟨key.1.imp ?_, key.2⟩
  intro a b hne hand
  apply hne
  simp only [ceph_fscache_entry.identity, Prod.mk.injEq]
  exact ⟨hand.1, hand.2.2⟩

/-- C2 at a concrete input: the registry obtained from the empty one by registering "alt" and
then the empty uniquifier, and unregistering the first of the two, is reachable and keeps
the invariant. -/
theorem reachable_registry_invariant_witness :
    reachable (ceph_fscache_unregister_fs
      (ceph_fscache_register_fs registry_alt client_plain true (some 2)).list
      { client_alt with fscache := some 1 }).list ∧
    ∀ ent ∈ (ceph_fscache_unregister_fs
      (ceph_fscache_register_fs registry_alt client_plain true (some 2)).list
      { client_alt with fscache := some 1 }).list, ent.fscache ≠ none :=
  ⟨reachable.step (reachable.step (reachable.step reachable.empty
      (registry_step.register [] client_alt true (some 1)))
      (registry_step.register registry_alt client_plain true (some 2)))
      (registry_step.unregister _ _),
    (reachable_registry_invariant _ (reachable.step (reachable.step (reachable.step
      reachable.empty
      (registry_step.register [] client_alt true (some 1)))
      (registry_step.register registry_alt client_plain true (some 2)))
      (registry_step.unregister _ _))).2⟩

/-- C3, as the code has it: let A and B be clients with the same fsid and the same uniquifier
bytes, and let `ceph_fscache_register_fs` on A return 0 with the live cookie `H` (one that no
entry already in the registry references).  Then, after any history in which `H` is not
unregistered, registering B returns `-EBUSY`; and once a client holding `H` has called
`ceph_fscache_unregister_fs`, no entry with the identity of A is left, registering B returns 0
provided the allocation of the entry succeeds, and when the service grants a cookie one entry
for B is appended. -/
theorem register_fs_unique_until_unregistered (l : List ceph_fscache_entry)
    (A B : ceph_fs_client) (H : Nat) (kA : Bool)
    (hAB : A.fsid = B.fsid ∧ c_string A.fscache_uniq = c_string B.fscache_uniq)
    (hA : (ceph_fscache_register_fs l A kA (some H)).ret = 0)
    (hlive : ∀ ent ∈ l, ent.fscache ≠ some H)
    (l2 : List ceph_fscache_entry)
    (hsteps : steps_keeping H (ceph_fscache_register_fs l A kA (some H)).list l2) :
    (∀ (k : Bool) (acquired : fscache_cookie_ptr),
      (ceph_fscache_register_fs l2 B k acquired).ret = -EBUSY) ∧
    (∀ holder : ceph_fs_client, holder.fscache = some H →
      (∀ ent ∈ (ceph_fscache_unregister_fs l2 holder).list,
        ¬(ent.fsid = A.fsid ∧ ent.uniquifier = c_string A.fscache_uniq)) ∧
      (∀ acquired : fscache_cookie_ptr,
        (ceph_fscache_register_fs (ceph_fscache_unregister_fs l2 holder).list B true
          acquired).ret = 0) ∧
      (∀ h2 : Nat, ∃ ent : ceph_fscache_entry,
        (ceph_fscache_register_fs (ceph_fscache_unregister_fs l2 holder).list B true
          (some h2)).list = (ceph_fscache_unregister_fs l2 holder).list ++ [ent] ∧
        ent.fsid = B.fsid ∧ ent.uniquifier = c_string B.fscache_uniq ∧
        ent.fscache = some h2)) := by
  have hidAB : A.identity = B.identity := by
    simp only [ceph_fs_client.identity, Prod.mk.injEq]; exact hAB
  -- the registration of A appended the entry `entA`
  obtain ⟨entA, hentA, hlist, hno⟩ : ∃ entA : ceph_fscache_entry,
      (entA.fscache = some H ∧ entA.identity = A.identity) ∧
      (ceph_fscache_register_fs l A kA (some H)).list = l ++ [entA] ∧
      ∀ ent ∈ l, ent.identity ≠ A.identity := by
    rcases register_fs_cases l A kA (some H) with ⟨_, heq⟩ | ⟨_, _, heq⟩ |
      ⟨hno, _, _, _, _, hlist⟩
    · rw [heq] at hA; exact absurd hA.symm zero_ne_ebusy
    · rw [heq] at hA; exact absurd hA enomem_ne_zero
    · refine ⟨_, ⟨rfl, ?_⟩, by simpa using hlist, hno⟩
      simp only [ceph_fscache_entry.identity, ceph_fs_client.identity, new_entry_fsid,
        new_entry_uniquifier]
  obtain ⟨hcookie, hident⟩ := hentA
  rw [hlist] at hsteps
  have h1 : (l ++ [entA]).find? (fun e => decide (e.fscache = some H)) = some entA := by
    have hnone : l.find? (fun e => decide (e.fscache = some H)) = none := by
      rw [List.find?_eq_none]
      intro e he
      simpa using hlive e he
    rw [List.find?_append, hnone]
    simp [List.find?_cons, hcookie]
  have h2 : (l ++ [entA]).filter (fun e => decide (e.identity = entA.identity)) = [entA] := by
    have hnil : l.filter (fun e => decide (e.identity = entA.identity)) = [] := by
      rw [List.filter_eq_nil_iff]
      intro e he
      rw [hident]
      simpa using hno e he
    rw [List.filter_append, hnil]
    simp [List.filter_cons]
  obtain ⟨i1, i2⟩ := steps_keeping_invariant hcookie hsteps h1 h2
  have hmem : entA ∈ l2 := by
    have : entA ∈ l2.filter (fun e => decide (e.identity = entA.identity)) := by
      rw [i2]; exact List.mem_singleton.2 rfl
    exact (List.mem_filter.1 this).1
  refine ⟨?_, ?_⟩
  · intro k acquired
    rcases register_fs_cases l2 B k acquired with ⟨_, heq⟩ | ⟨hnoB, _, _⟩ | ⟨hnoB, _, _⟩
    · rw [heq]
    · exact absurd (hident.trans hidAB) (hnoB entA hmem)
    · exact absurd (hident.trans hidAB) (hnoB entA hmem)
  · intro holder hholder
    have hgone : ∀ ent ∈ (ceph_fscache_unregister_fs l2 holder).list,
        ent.identity ≠ A.identity := by
      unfold ceph_fscache_unregister_fs
      rw [hholder]
      simp only [fscache_cookie_valid, Option.isSome_some, if_true]
      rcases unlink_first_cases (some H) l2 with ⟨hall, _⟩ | ⟨pre, ent, post, hl, hpre, hent, heq⟩
      · exact absurd hcookie (hall entA hmem)
      · simp only [heq]
        rw [hl] at i1 i2
        have hpre2 : pre.find? (fun e => decide (e.fscache = some H)) = none := by
          rw [List.find?_eq_none]
          intro e he
          simpa using hpre e he
        rw [List.find?_append, hpre2] at i1
        simp only [List.find?_cons, hent, decide_True, Option.none_or, Option.some.injEq] at i1
        rw [i1] at i2
        rw [List.filter_append, List.filter_cons] at i2
        simp only [decide_True, if_true] at i2
        have hlen := congrArg List.length i2
        simp only [List.length_append, List.length_cons, List.length_nil] at hlen
        have hp : (List.filter (fun e => decide (e.identity = entA.identity)) pre) = [] :=
          List.length_eq_zero.1 (by omega)
        have hq : (List.filter (fun e => decide (e.identity = entA.identity)) post) = [] :=
          List.length_eq_zero.1 (by omega)
        rw [List.filter_eq_nil_iff] at hp hq
        intro e he
        rw [← hident]
        rcases List.mem_append.1 he with h | h
        · simpa using hp e h
        · simpa using hq e h
    have hnoB : ¬ ∃ ent ∈ (ceph_fscache_unregister_fs l2 holder).list,
        ent.identity = B.identity := by
      rintro ⟨ent, hent, he⟩
      exact hgone ent hent (he.trans hidAB.symm)
    refine ⟨?_, ?_, ?_⟩
    · intro ent hent hand
      apply hgone ent hent
      simp only [ceph_fscache_entry.identity, ceph_fs_client.identity, Prod.mk.injEq]
      exact hand
    · intro acquired
      rcases register_fs_cases (ceph_fscache_unregister_fs l2 holder).list B true acquired with
        ⟨hex, _⟩ | ⟨_, hk, _⟩ | ⟨_, _, hret, _⟩
      · exact absurd hex hnoB
      · exact absurd hk (by decide)
      · exact hret
    · intro h2
      rcases register_fs_cases (ceph_fscache_unregister_fs l2 holder).list B true (some h2) with
        ⟨hex, _⟩ | ⟨_, hk, _⟩ | ⟨_, _, _, _, _, hlist2⟩
      · exact absurd hex hnoB
      · exact absurd hk (by decide)
      · exact ⟨{ new_entry B.fsid B.fscache_uniq with fscache := some h2 },
          by simpa using hlist2, new_entry_fsid _ _, new_entry_uniquifier _ _, rfl⟩

/-- C3 on the scenario: `fsid_ABCD` with the empty uniquifier registers with the cookie `1`
and "alt" registers next to it with the cookie `2`; the first identity is then rejected with
`-EBUSY`; once the client holding the cookie `1` has unregistered, it is accepted again. -/
theorem register_fs_unique_until_unregistered_witness :
    scenario_H1.ret = 0 ∧ scenario_H1.fsc.fscache = some 1 ∧ scenario_H2.ret = 0 ∧
    (ceph_fscache_register_fs scenario_H2.list client_plain true (some 3)).ret = -EBUSY ∧
    (ceph_fscache_register_fs (ceph_fscache_unregister_fs scenario_H2.list scenario_H1.fsc).list
      client_plain true (some 3)).ret = 0 :=
  ⟨by decide, by decide, by decide,
    (register_fs_unique_until_unregistered [] client_plain client_plain 1 true ⟨rfl, rfl⟩
      (by decide) (by decide) scenario_H2.list
      (steps_keeping.register client_alt true (some 2) (steps_keeping.refl _))).1 true (some 3),
    ((register_fs_unique_until_unregistered [] client_plain client_plain 1 true ⟨rfl, rfl⟩
      (by decide) (by decide) scenario_H2.list
      (steps_keeping.register client_alt true (some 2) (steps_keeping.refl _))).2
      scenario_H1.fsc (by decide)).2.1 (some 3)⟩

/-- C3 as stated fails when the allocation of the entry fails: after the cookie `1` of the
scenario has been unregistered, registering the same identity again returns `-ENOMEM`, not 0,
if `kzalloc` returns NULL. -/
theorem enomem_after_unregister :
    scenario_H1.ret = 0 ∧ scenario_H1.fsc.fscache = some 1 ∧
    (ceph_fscache_unregister_fs scenario_H1.list scenario_H1.fsc).list = [] ∧
    (ceph_fscache_register_fs (ceph_fscache_unregister_fs scenario_H1.list scenario_H1.fsc).list
      client_plain false (some 2)).ret = -ENOMEM ∧
    (ceph_fscache_register_fs (ceph_fscache_unregister_fs scenario_H1.list scenario_H1.fsc).list
      client_plain false (some 2)).ret ≠ 0 := by
  decide

/-- Why the cookie of C3 has to be live: if the service answered with a cookie that an entry of
the registry already references, `ceph_fscache_unregister_fs` would unlink that older entry,
and the identity just registered would still be rejected afterwards. -/
theorem register_fs_aliased_cookie :
    (ceph_fscache_register_fs registry_alt client_plain true (some 1)).ret = 0 ∧
    (ceph_fscache_register_fs
      (ceph_fscache_unregister_fs
        (ceph_fscache_register_fs registry_alt client_plain true (some 1)).list
        (ceph_fscache_register_fs registry_alt client_plain true (some 1)).fsc).list
      client_plain true (some 2)).ret = -EBUSY := by
  decide

/-- C5, as the code has it: for every client and registry state, the first call of
`ceph_fscache_unregister_fs` removes at most one entry (the first one that references the
session cookie of the client), sets the session cookie to NULL, and issues exactly one release
of that cookie, with `retire = false`, when the cookie is not NULL and no call at all when it
is NULL; a second call on the same client removes no entry, issues no call and changes
nothing. -/
theorem unregister_fs_twice (l : List ceph_fscache_entry) (fsc : ceph_fs_client) :
    ((ceph_fscache_unregister_fs l fsc).list = l ∨
      ∃ pre ent post, l = pre ++ ent :: post ∧ (∀ e ∈ pre, e.fscache ≠ fsc.fscache) ∧
        ent.fscache = fsc.fscache ∧ (ceph_fscache_unregister_fs l fsc).list = pre ++ post) ∧
    (ceph_fscache_unregister_fs l fsc).fsc.fscache = none ∧
    (fsc.fscache ≠ none → (ceph_fscache_unregister_fs l fsc).calls =
      [fscache_call.__fscache_relinquish_cookie fsc.fscache false]) ∧
    (fsc.fscache = none → (ceph_fscache_unregister_fs l fsc).calls = []) ∧
    (ceph_fscache_unregister_fs (ceph_fscache_unregister_fs l fsc).list
      (ceph_fscache_unregister_fs l fsc).fsc).list = (ceph_fscache_unregister_fs l fsc).list ∧
    (ceph_fscache_unregister_fs (ceph_fscache_unregister_fs l fsc).list
      (ceph_fscache_unregister_fs l fsc).fsc).calls = [] ∧
    (ceph_fscache_unregister_fs (ceph_fscache_unregister_fs l fsc).list
      (ceph_fscache_unregister_fs l fsc).fsc).fsc = (ceph_fscache_unregister_fs l fsc).fsc := by
  have hnull : (ceph_fscache_unregister_fs l fsc).fsc.fscache = none := by
    unfold ceph_fscache_unregister_fs; split <;> rfl
  have hsecond : ∀ (l2 : List ceph_fscache_entry) (c : ceph_fs_client), c.fscache = none →
      ceph_fscache_unregister_fs l2 c = { fsc := c, list := l2, calls := [], diag := [] } := by
    intro l2 c hc
    cases c with
    | mk f u k =>
      simp only at hc
      subst hc
      rfl
  refine ⟨?_, hnull, ?_, ?_, ?_, ?_, ?_⟩
  · cases hc : fsc.fscache with
    | none => left; rw [hsecond l fsc hc]
    | some c =>
      rcases unlink_first_cases (some c) l with ⟨_, heq⟩ | ⟨pre, ent, post, hl, hpre, hent, heq⟩
      · left
        simp [ceph_fscache_unregister_fs, fscache_cookie_valid, hc, heq]
      · right
        exact ⟨pre, ent, post, hl, hpre, hent, by
          simp [ceph_fscache_unregister_fs, fscache_cookie_valid, hc, heq]⟩
  · intro hc
    cases hc2 : fsc.fscache with
    | none => exact absurd hc2 hc
    | some c => simp [ceph_fscache_unregister_fs, fscache_cookie_valid, hc2]
  · intro hc
    rw [hsecond l fsc hc]
  · rw [hsecond _ _ hnull]
  · rw [hsecond _ _ hnull]
  · rw [hsecond _ _ hnull]

/-- C5 on the scenario: the client holding the cookie `1` unregisters twice; the first call
unlinks its entry and releases the cookie `1` once, the second call issues nothing. -/
theorem unregister_fs_twice_witness :
    scenario_H1.fsc.fscache ≠ none ∧
    (ceph_fscache_unregister_fs scenario_H1.list scenario_H1.fsc).calls =
      [fscache_call.__fscache_relinquish_cookie (some 1) false] ∧
    (ceph_fscache_unregister_fs (ceph_fscache_unregister_fs scenario_H1.list scenario_H1.fsc).list
      (ceph_fscache_unregister_fs scenario_H1.list scenario_H1.fsc).fsc).calls = [] :=
  ⟨by decide,
    (unregister_fs_twice scenario_H1.list scenario_H1.fsc).2.2.1 (by decide),
    (unregister_fs_twice scenario_H1.list scenario_H1.fsc).2.2.2.2.2.1⟩

/-- C5 as stated fails for a client whose session cookie is NULL (the service declined at
mount time): the first `ceph_fscache_unregister_fs` issues no release at all, not exactly
one. -/
theorem unregister_fs_null_cookie_no_release :
    client_plain.fscache = none ∧
    (ceph_fscache_unregister_fs registry_alt client_plain).calls = [] ∧
    (ceph_fscache_unregister_fs registry_alt client_plain).calls.length ≠ 1 := by
  decide

/-! ## The object cookie: claims -/

/-- C6, as the code has it: for every object that already holds a cookie `h`, if the session
cookie is NULL, or the object is not a regular file, or `I_NEW` is not set, then
`ceph_fscache_register_inode_cookie` enters no operation of the service, no acquire in
particular, and leaves the object, its cookie `h` included, as it was. -/
theorem register_inode_cookie_registered (fsc : ceph_fs_client) (ci : ceph_inode_info)
    (h : Nat) (acquired : fscache_cookie_ptr) (hreg : ci.fscache = some h)
    (hguard : fsc.fscache = none ∨ S_ISREG ci.vfs_inode.i_mode = false ∨
      ci.vfs_inode.i_state &&& I_NEW = 0) :
    (ceph_fscache_register_inode_cookie fsc ci acquired).calls = [] ∧
    (ceph_fscache_register_inode_cookie fsc ci acquired).ci.fscache = some h ∧
    (ceph_fscache_register_inode_cookie fsc ci acquired).ci = ci := by
  have hnoop : ceph_fscache_register_inode_cookie fsc ci acquired =
      { ci := ci, calls := [], diag := [] } := by
    unfold ceph_fscache_register_inode_cookie
    rcases hguard with hg | hg | hg
    · simp [hg]
    · simp [hg]
    · simp [hg]
  rw [hnoop]
  exact ⟨rfl, hreg, rfl⟩

/-- C6 at a concrete input: `inode_registered` with `I_NEW` cleared keeps its cookie `3` and
no operation is entered, under a live session and whatever the service would answer. -/
theorem register_inode_cookie_registered_witness :
    ({ inode_registered with vfs_inode := { inode_registered.vfs_inode with i_state := 0 } } :
      ceph_inode_info).fscache = some 3 ∧
    (ceph_fscache_register_inode_cookie client_live
      { inode_registered with vfs_inode := { inode_registered.vfs_inode with i_state := 0 } }
      (some 4)).calls = [] ∧
    (ceph_fscache_register_inode_cookie client_live
      { inode_registered with vfs_inode := { inode_registered.vfs_inode with i_state := 0 } }
      (some 4)).ci.fscache = some 3 :=
  ⟨rfl,
    (register_inode_cookie_registered client_live
      { inode_registered with vfs_inode := { inode_registered.vfs_inode with i_state := 0 } }
      3 (some 4) rfl (Or.inr (Or.inr (by decide)))).1,
    (register_inode_cookie_registered client_live
      { inode_registered with vfs_inode := { inode_registered.vfs_inode with i_state := 0 } }
      3 (some 4) rfl (Or.inr (Or.inr (by decide)))).2.1⟩

/-- C6 as stated fails: a regular file with `I_NEW` set under a live session that already
holds the cookie `3` gets a second acquire, and its cookie is replaced by the answer `4`. -/
theorem reacquire_on_registered_new_inode :
    inode_registered.fscache = some 3 ∧
    (ceph_fscache_register_inode_cookie client_live inode_registered (some 4)).calls =
      [fscache_call.acquire_cookie (cookie_parent.cookie (some 9))
        cookie_type.FSCACHE_COOKIE_TYPE_DATAFILE "CEPH.inode"
        (index_key.vino { ino := 1099511627776, snap := 0 })
        (some { version := 5, mtime_sec := 1700000000, mtime_nsec := 250 }) 4096] ∧
    (ceph_fscache_register_inode_cookie client_live inode_registered (some 4)).ci.fscache =
      some 4 ∧
    (ceph_fscache_register_inode_cookie client_live inode_registered (some 4)).ci.fscache ≠
      some 3 := by
  decide

/-- C7: for every object whose cookie is NULL, each of `ceph_fscache_use_cookie` (either
intent), `ceph_fscache_unuse_cookie` (`update` true or false), `ceph_fscache_update`,
`ceph_fscache_invalidate` (any flags), `ceph_fscache_resize` and
`ceph_fscache_unregister_inode_cookie` enters no operation of the caching service and leaves
the object as it was.  The first three, resize and unregister test the cookie themselves;
invalidate hands the NULL cookie to `fscache_invalidate`, which does nothing with it. -/
theorem null_cookie_operations_noop (ci : ceph_inode_info) (hnull : ci.fscache = none)
    (will_modify update : Bool) (flags : Nat) :
    ceph_fscache_use_cookie ci will_modify = { ci := ci, calls := [], diag := [] } ∧
    ceph_fscache_unuse_cookie ci update = { ci := ci, calls := [], diag := [] } ∧
    ceph_fscache_update ci = { ci := ci, calls := [], diag := [] } ∧
    ceph_fscache_invalidate ci flags = { ci := ci, calls := [], diag := [] } ∧
    ceph_fscache_resize ci = { ci := ci, calls := [], diag := [] } ∧
    ceph_fscache_unregister_inode_cookie ci = { ci := ci, calls := [], diag := [] } := by
  cases ci with
  | mk v i n f =>
    simp only at hnull
    subst hnull
    refine ⟨rfl, rfl, rfl, rfl, rfl, rfl⟩

/-- With a cookie `h` the wrapper is transparent: `ceph_fscache_invalidate` enters exactly the
invalidate operation on `h`, with the coherency data and the size of the object and the flags
it was given. -/
theorem invalidate_with_cookie (ci : ceph_inode_info) (h : Nat) (hreg : ci.fscache = some h)
    (flags : Nat) :
    (ceph_fscache_invalidate ci flags).calls =
      [fscache_call.invalidate (some h)
        { version := ci.i_version
          mtime_sec := u64_of_s64 ci.vfs_inode.i_mtime.tv_sec
          mtime_nsec := u64_of_s64 ci.vfs_inode.i_mtime.tv_nsec }
        ci.vfs_inode.i_size flags] := by
  simp [ceph_fscache_invalidate, fscache_invalidate, fscache_cookie_valid, hreg, i_size_read]

/-- C7 at a concrete input: on `inode_new`, whose cookie is NULL, invalidate with the flags
`1`, use with intent to modify and unuse with `update` enter no operation and leave the
object as it was. -/
theorem null_cookie_operations_noop_witness :
    inode_new.fscache = none ∧
    (ceph_fscache_invalidate inode_new 1).calls = [] ∧
    (ceph_fscache_invalidate inode_new 1).ci = inode_new ∧
    (ceph_fscache_use_cookie inode_new true).calls = [] ∧
    (ceph_fscache_unuse_cookie inode_new true).calls = [] :=
  ⟨rfl,
    congrArg inode_effect.calls (null_cookie_operations_noop inode_new rfl true true 1).2.2.2.1,
    congrArg inode_effect.ci (null_cookie_operations_noop inode_new rfl true true 1).2.2.2.1,
    congrArg inode_effect.calls (null_cookie_operations_noop inode_new rfl true true 1).1,
    congrArg inode_effect.calls (null_cookie_operations_noop inode_new rfl true true 1).2.1⟩

/-- C8: for every object without a cookie, `ceph_fscache_register_inode_cookie` issues an
acquire exactly when the session cookie is not NULL, the object is a regular file and `I_NEW`
is set.  When all three hold it issues exactly one call, an acquire under the session cookie,
of the data-file class, keyed by `i_vino`, carrying the coherency data built from `i_version`
and the mtime of the object and its current size, and it stores the answer as the cookie of the
object; when one of them fails it issues no call and the object stays without a cookie. -/
theorem register_inode_cookie_guard (fsc : ceph_fs_client) (ci : ceph_inode_info)
    (acquired : fscache_cookie_ptr) (huncached : ci.fscache = none) :
    ((∃ c ∈ (ceph_fscache_register_inode_cookie fsc ci acquired).calls, c.is_acquire = true) ↔
      (fsc.fscache ≠ none ∧ S_ISREG ci.vfs_inode.i_mode = true ∧
        ci.vfs_inode.i_state &&& I_NEW ≠ 0)) ∧
    ((fsc.fscache ≠ none ∧ S_ISREG ci.vfs_inode.i_mode = true ∧
        ci.vfs_inode.i_state &&& I_NEW ≠ 0) →
      (ceph_fscache_register_inode_cookie fsc ci acquired).calls =
        [fscache_call.acquire_cookie (cookie_parent.cookie fsc.fscache)
          cookie_type.FSCACHE_COOKIE_TYPE_DATAFILE "CEPH.inode" (index_key.vino ci.i_vino)
          (some { version := ci.i_version
                  mtime_sec := u64_of_s64 ci.vfs_inode.i_mtime.tv_sec
                  mtime_nsec := u64_of_s64 ci.vfs_inode.i_mtime.tv_nsec })
          ci.vfs_inode.i_size] ∧
      (ceph_fscache_register_inode_cookie fsc ci acquired).ci = { ci with fscache := acquired } ∧
      (ceph_fscache_register_inode_cookie fsc ci acquired).ci.fscache = acquired) ∧
    (¬(fsc.fscache ≠ none ∧ S_ISREG ci.vfs_inode.i_mode = true ∧
        ci.vfs_inode.i_state &&& I_NEW ≠ 0) →
      (ceph_fscache_register_inode_cookie fsc ci acquired).calls = [] ∧
      (ceph_fscache_register_inode_cookie fsc ci acquired).ci = ci ∧
      (ceph_fscache_register_inode_cookie fsc ci acquired).ci.fscache = none) := by
  by_cases hg : fsc.fscache ≠ none ∧ S_ISREG ci.vfs_inode.i_mode = true ∧
      ci.vfs_inode.i_state &&& I_NEW ≠ 0
  · obtain ⟨h1, h2, h3⟩ := hg
    have hrun : ceph_fscache_register_inode_cookie fsc ci acquired =
        { ci := { ci with fscache := acquired }
          calls := [fscache_call.acquire_cookie (cookie_parent.cookie fsc.fscache)
            cookie_type.FSCACHE_COOKIE_TYPE_DATAFILE "CEPH.inode" (index_key.vino ci.i_vino)
            (some { version := ci.i_version
                    mtime_sec := u64_of_s64 ci.vfs_inode.i_mtime.tv_sec
                    mtime_nsec := u64_of_s64 ci.vfs_inode.i_mtime.tv_nsec })
            ci.vfs_inode.i_size]
          diag := [] } := by
      cases hf : fsc.fscache with
      | none => exact absurd hf h1
      | some c =>
        simp [ceph_fscache_register_inode_cookie, hf, h2, h3, huncached, i_size_read]
    rw [hrun]
    refine ⟨⟨fun _ => ⟨h1, h2, h3⟩, fun _ => ⟨_, List.mem_singleton.2 rfl, rfl⟩⟩,
      fun _ => ⟨rfl, rfl, rfl⟩, fun hn => absurd ⟨h1, h2, h3⟩ hn⟩
  · have hnoop : ceph_fscache_register_inode_cookie fsc ci acquired =
        { ci := ci, calls := [], diag := [] } := by
      unfold ceph_fscache_register_inode_cookie
      by_cases h1 : fsc.fscache = none
      · simp [h1]
      · by_cases h2 : S_ISREG ci.vfs_inode.i_mode = true
        · have h3 : ci.vfs_inode.i_state &&& I_NEW = 0 := by
            by_contra h3
            exact hg ⟨h1, h2, h3⟩
          simp [h3]
        · simp [h2]
    rw [hnoop]
    refine ⟨⟨?_, fun h => absurd h hg⟩, fun h => absurd h hg, fun _ => ⟨rfl, rfl, huncached⟩⟩
    rintro ⟨c, hc, _⟩
    simp at hc

/-- C8 at a concrete input: `inode_new` under a live session is acquired once, under the
session cookie `9`, with version 5, and the answer `4` becomes its cookie. -/
theorem register_inode_cookie_guard_witness :
    inode_new.fscache = none ∧
    (ceph_fscache_register_inode_cookie client_live inode_new (some 4)).calls =
      [fscache_call.acquire_cookie (cookie_parent.cookie (some 9))
        cookie_type.FSCACHE_COOKIE_TYPE_DATAFILE "CEPH.inode"
        (index_key.vino { ino := 1099511627776, snap := 0 })
        (some { version := 5, mtime_sec := 1700000000, mtime_nsec := 250 }) 4096] ∧
    (ceph_fscache_register_inode_cookie client_live inode_new (some 4)).ci.fscache = some 4 :=
  ⟨rfl,
    ((register_inode_cookie_guard client_live inode_new (some 4) rfl).2.1
      ⟨by decide, by decide, by decide⟩).1,
    ((register_inode_cookie_guard client_live inode_new (some 4) rfl).2.1
      ⟨by decide, by decide, by decide⟩).2.2⟩

/-- C9: for every object that holds a cookie `h`, `ceph_fscache_unuse_cookie` issues exactly one
call, the end of use on `h`.  With `update = true` it carries the coherency data and the size
read from the object at that call: the version, the mtime (stored as `u64`) and the size the
object has then, so that an object whose version was set to `v2` after `use` delivers `v2`;
with `update = false` it carries neither coherency data nor size. -/
theorem unuse_cookie_current_metadata (ci : ceph_inode_info) (h : Nat)
    (hreg : ci.fscache = some h) :
    (ceph_fscache_unuse_cookie ci true).calls =
      [fscache_call.unuse_cookie (some h)
        (some { version := ci.i_version
                mtime_sec := u64_of_s64 ci.vfs_inode.i_mtime.tv_sec
                mtime_nsec := u64_of_s64 ci.vfs_inode.i_mtime.tv_nsec })
        (some ci.vfs_inode.i_size)] ∧
    (ceph_fscache_unuse_cookie ci false).calls = [fscache_call.unuse_cookie (some h) none none] ∧
    (∀ (will_modify : Bool) (v2 : Nat),
      (ceph_fscache_unuse_cookie
        { (ceph_fscache_use_cookie ci will_modify).ci with i_version := v2 } true).calls =
      [fscache_call.unuse_cookie (some h)
        (some { version := v2
                mtime_sec := u64_of_s64 ci.vfs_inode.i_mtime.tv_sec
                mtime_nsec := u64_of_s64 ci.vfs_inode.i_mtime.tv_nsec })
        (some ci.vfs_inode.i_size)]) := by
  cases ci with
  | mk v i n f =>
    simp only at hreg
    subst hreg
    refine ⟨rfl, rfl, fun w v2 => ?_⟩
    cases w <;> rfl

/-- C9 on the scenario: the object is used at version 4, is at version 5 when
`ceph_fscache_unuse_cookie` is called with `update = true`, and the service receives
version 5. -/
theorem unuse_cookie_current_metadata_witness :
    ({ inode_registered with i_version := 4 } : ceph_inode_info).fscache = some 3 ∧
    (ceph_fscache_unuse_cookie
      { (ceph_fscache_use_cookie { inode_registered with i_version := 4 } false).ci with
        i_version := 5 } true).calls =
      [fscache_call.unuse_cookie (some 3)
        (some { version := 5, mtime_sec := 1700000000, mtime_nsec := 250 }) (some 4096)] :=
  ⟨rfl, (unuse_cookie_current_metadata { inode_registered with i_version := 4 } 3 rfl).2.2
    false 5⟩

/-- C10: for every object that holds a cookie `h`, `ceph_fscache_unregister_inode_cookie` issues
exactly one call, the release of `h` with `retire = false`, and leaves the object without a
cookie; every later call on the object issues no call; so any sequence of one or more such
calls releases `h` exactly once. -/
theorem unregister_inode_cookie_once (ci : ceph_inode_info) (h : Nat)
    (hreg : ci.fscache = some h) :
    (ceph_fscache_unregister_inode_cookie ci).calls =
      [fscache_call.relinquish_cookie (some h) false] ∧
    (ceph_fscache_unregister_inode_cookie ci).ci.fscache = none ∧
    (∀ n : Nat,
      (unregister_inode_cookie_repeat n (ceph_fscache_unregister_inode_cookie ci).ci).calls = [] ∧
      (unregister_inode_cookie_repeat n (ceph_fscache_unregister_inode_cookie ci).ci).ci.fscache
        = none) ∧
    (∀ n : Nat, (unregister_inode_cookie_repeat (n + 1) ci).calls =
      [fscache_call.relinquish_cookie (some h) false]) := by
  have hlater : ∀ (n : Nat) (c : ceph_inode_info), c.fscache = none →
      (unregister_inode_cookie_repeat n c).calls = [] ∧
      (unregister_inode_cookie_repeat n c).ci.fscache = none := by
    intro n
    induction n with
    | zero => intro c hc; exact ⟨rfl, hc⟩
    | succ n ih =>
      intro c hc
      have hstep : ceph_fscache_unregister_inode_cookie c =
          { ci := c, calls := [], diag := [] } := by
        cases c with
        | mk v i k f =>
          simp only at hc
          subst hc
          rfl
      simp only [unregister_inode_cookie_repeat, hstep]
      exact ⟨by simp [(ih c hc).1], (ih c hc).2⟩
  have hfirst : (ceph_fscache_unregister_inode_cookie ci).calls =
      [fscache_call.relinquish_cookie (some h) false] := by
    simp [ceph_fscache_unregister_inode_cookie, hreg]
  have hnull : (ceph_fscache_unregister_inode_cookie ci).ci.fscache = none := by
    simp [ceph_fscache_unregister_inode_cookie, hreg]
  refine ⟨hfirst, hnull, fun n => hlater n _ hnull, fun n => ?_⟩
  simp only [unregister_inode_cookie_repeat, hfirst, (hlater n _ hnull).1]
  rfl

/-- C10 at a concrete input: three calls in a row on `inode_registered` release the cookie `3`
once. -/
theorem unregister_inode_cookie_once_witness :
    inode_registered.fscache = some 3 ∧
    (unregister_inode_cookie_repeat 3 inode_registered).calls =
      [fscache_call.relinquish_cookie (some 3) false] :=
  ⟨rfl, (unregister_inode_cookie_once inode_registered 3 rfl).2.2.2 2⟩

end Ceph
